import Mathlib

/-!
Verification development for the PCB defect-detection demo
(`page2/inference.py` and `page2/segtool.py`).

The Python source is shallowly embedded below.  Pure computations
(size arithmetic, branching, session-state updates) are translated
directly from the source; the external collaborators that the source
treats as black boxes (PIL decoding/resampling, the ultralytics
detector and its `plot` renderer, the Dify HTTP service) are either
parameters of the embedding or definitions marked `Modelled from the
spec:`.  Machine-float ratio arithmetic in `preprocess_image`
(`ratio = max_size / max(size)`, `int(w * ratio)`) is embedded as the
exact rational floor `w * max_size / d` on `Nat`, which agrees with the
source on all inputs relevant here (the operands are far below the
precision where float rounding could shift the truncated integer).
-/

namespace PCB

/-- One pixel with three colour channels, in the channel order the
surrounding context assigns (RGB for PIL images, BGR for the arrays the
detection library returns). -/
structure Pixel where
  c1 : Nat
  c2 : Nat
  c3 : Nat
deriving DecidableEq, Repr

/-- Swap the first and third channel of a pixel: the pixel-level action of
`cv2.cvtColor(..., cv2.COLOR_BGR2RGB)` (and of the inverse RGB→BGR
conversion the detection library performs on its input). -/
def swapChannels (p : Pixel) : Pixel := ⟨p.c3, p.c2, p.c1⟩

/-- PIL image modes that appear in the source (`image.mode` checks in
`preprocess_image` and `process_analysis`). -/
inductive Mode where
  | RGB
  | RGBA
  | L
  | P
  | LA
  | other
deriving DecidableEq, Repr

/-- A raster image: dimensions, PIL mode, and pixel contents. -/
structure Img where
  width : Nat
  height : Nat
  mode : Mode
  pixels : Nat → Nat → Pixel

/-- Apply a function to every pixel of an image (dimensions and mode kept). -/
def mapPixels (f : Pixel → Pixel) (img : Img) : Img :=
  { img with pixels := fun x y => f (img.pixels x y) }

/-- One detection box (coordinates, confidence, class), as produced by the
detector.  `predict_image` never inspects the fields; only the number of
boxes matters to it. -/
structure Box where
  x1 : Int
  y1 : Int
  x2 : Int
  y2 : Int
  conf : Nat
  cls : Nat

/-- One element of the list the detection model call returns
(`results[0]` in `predict_image`).  `boxes` is `none` when the library
reports `result.boxes is None`. -/
structure YoloResult where
  boxes : Option (List Box)

/-- The external collaborators of `inference.py`, kept abstract:
pixel conversion performed by PIL `convert('RGB')`, the LANCZOS
resampler (only the pixel contents are library-chosen; the target
dimensions are computed by the source), the detector call, and the
box renderer used by `Results.plot` when at least one box is drawn. -/
structure ExternalLib where
  convPix : Mode → Pixel → Pixel
  resample : Img → Nat → Nat → Nat → Nat → Pixel
  det : Img → List YoloResult
  draw : List Box → Img → Img

/-- The three accepted input shapes of `preprocess_image` plus the
rejected remainder.  A path input carries the decoded image together
with the `os.path.exists` answer for the path. -/
inductive ImageInput where
  | path (pathExists : Bool) (img : Img)
  | inMemory (img : Img)
  | stream (img : Img)
  | unsupported

/-- Errors raised by `preprocess_image`: `FileNotFoundError` for a missing
path, `ValueError("不支持的图片输入格式")` for an unrecognised input type. -/
inductive PError where
  | fileNotFound
  | unsupportedInput
deriving DecidableEq, Repr

/-- `if image.mode != 'RGB': image = image.convert('RGB')`
(inference.py lines 73–74). -/
def toRGB (lib : ExternalLib) (img : Img) : Img :=
  if img.mode = Mode.RGB then img
  else { width := img.width, height := img.height, mode := Mode.RGB,
         pixels := fun x y => lib.convPix img.mode (img.pixels x y) }

/-- The scaling branch of `preprocess_image` (inference.py lines 79–84):
`if max(original_size) > max_size`, compute `ratio = max_size / max(size)`
and resize to `(int(w*ratio), int(h*ratio))` with LANCZOS resampling.
The float products are embedded as exact `Nat` floor division. -/
def resizeIfBig (lib : ExternalLib) (img : Img) (max_size : Nat) : Img :=
  if max img.width img.height > max_size then
    let d := max img.width img.height
    let nw := img.width * max_size / d
    let nh := img.height * max_size / d
    { width := nw, height := nh, mode := img.mode,
      pixels := lib.resample img nw nh }
  else img

/-- The image-to-image core of `preprocess_image`: RGB normalisation then
conditional downscaling. -/
def preprocessImg (lib : ExternalLib) (img : Img) (max_size : Nat) : Img :=
  resizeIfBig lib (toRGB lib img) max_size

/-- `PCBInference.preprocess_image` (inference.py lines 49–87): dispatch on
the input shape (path / PIL image / readable stream / anything else),
then normalise to RGB and downscale when the longer side exceeds
`max_size`. -/
def preprocess_image (lib : ExternalLib) (input : ImageInput)
    (max_size : Nat) : Except PError Img :=
  match input with
  | ImageInput.path pathExists img =>
      if pathExists then Except.ok (preprocessImg lib img max_size)
      else Except.error PError.fileNotFound
  | ImageInput.inMemory img => Except.ok (preprocessImg lib img max_size)
  | ImageInput.stream img => Except.ok (preprocessImg lib img max_size)
  | ImageInput.unsupported => Except.error PError.unsupportedInput

/-- The decoded image carried by a `preprocess_image` input, when there
is one. -/
def inputImg : ImageInput → Option Img
  | ImageInput.path _ img => some img
  | ImageInput.inMemory img => some img
  | ImageInput.stream img => some img
  | ImageInput.unsupported => none

theorem toRGB_width (lib : ExternalLib) (i : Img) :
    (toRGB lib i).width = i.width := by
  unfold toRGB; split <;> rfl

theorem toRGB_height (lib : ExternalLib) (i : Img) :
    (toRGB lib i).height = i.height := by
  unfold toRGB; split <;> rfl

theorem toRGB_mode (lib : ExternalLib) (i : Img) :
    (toRGB lib i).mode = Mode.RGB := by
  unfold toRGB
  split
  · next h => exact h
  · rfl

theorem toRGB_of_rgb (lib : ExternalLib) (i : Img) (h : i.mode = Mode.RGB) :
    toRGB lib i = i := by
  unfold toRGB; rw [if_pos h]

theorem resizeIfBig_mode (lib : ExternalLib) (i : Img) (m : Nat) :
    (resizeIfBig lib i m).mode = i.mode := by
  unfold resizeIfBig; split <;> rfl

theorem resizeIfBig_of_le (lib : ExternalLib) (i : Img) (m : Nat)
    (h : max i.width i.height ≤ m) : resizeIfBig lib i m = i := by
  unfold resizeIfBig; rw [if_neg (by omega)]

theorem resizeIfBig_width_of_gt (lib : ExternalLib) (i : Img) (m : Nat)
    (h : m < max i.width i.height) :
    (resizeIfBig lib i m).width = i.width * m / max i.width i.height := by
  unfold resizeIfBig; rw [if_pos (by omega)]

theorem resizeIfBig_height_of_gt (lib : ExternalLib) (i : Img) (m : Nat)
    (h : m < max i.width i.height) :
    (resizeIfBig lib i m).height = i.height * m / max i.width i.height := by
  unfold resizeIfBig; rw [if_pos (by omega)]

/-- After the conditional downscale, the longer side never exceeds
`max_size`: the resize target for the dominant dimension is exactly
`d * max_size / d = max_size`, and an image that skipped the resize
already satisfied the bound. -/
theorem resizeIfBig_maxdim_le (lib : ExternalLib) (i : Img) (m : Nat) :
    max (resizeIfBig lib i m).width (resizeIfBig lib i m).height ≤ m := by
  rcases le_or_lt (max i.width i.height) m with h | h
  · rw [resizeIfBig_of_le lib i m h]; exact h
  · have hd : 0 < max i.width i.height := by omega
    rw [resizeIfBig_width_of_gt lib i m h, resizeIfBig_height_of_gt lib i m h]
    have hw : i.width * m / max i.width i.height ≤ m := by
      calc i.width * m / max i.width i.height
          ≤ max i.width i.height * m / max i.width i.height :=
            Nat.div_le_div_right (Nat.mul_le_mul_right m (le_max_left _ _))
        _ = m := Nat.mul_div_cancel_left m hd
    have hh : i.height * m / max i.width i.height ≤ m := by
      calc i.height * m / max i.width i.height
          ≤ max i.width i.height * m / max i.width i.height :=
            Nat.div_le_div_right (Nat.mul_le_mul_right m (le_max_right _ _))
        _ = m := Nat.mul_div_cancel_left m hd
    exact max_le hw hh

theorem preprocessImg_mode (lib : ExternalLib) (img : Img) (m : Nat) :
    (preprocessImg lib img m).mode = Mode.RGB := by
  unfold preprocessImg; rw [resizeIfBig_mode, toRGB_mode]

theorem preprocessImg_maxdim_le (lib : ExternalLib) (img : Img) (m : Nat) :
    max (preprocessImg lib img m).width (preprocessImg lib img m).height ≤ m :=
  resizeIfBig_maxdim_le lib (toRGB lib img) m

/-- `preprocessImg` is idempotent outright: its output is already RGB and
already within the size bound, so a second pass changes nothing. -/
theorem preprocessImg_idem (lib : ExternalLib) (img : Img) (m : Nat) :
    preprocessImg lib (preprocessImg lib img m) m = preprocessImg lib img m := by
  have h1 : toRGB lib (preprocessImg lib img m) = preprocessImg lib img m :=
    toRGB_of_rgb lib _ (preprocessImg_mode lib img m)
  have h2 : resizeIfBig lib (preprocessImg lib img m) m = preprocessImg lib img m :=
    resizeIfBig_of_le lib _ m (preprocessImg_maxdim_le lib img m)
  show resizeIfBig lib (toRGB lib (preprocessImg lib img m)) m = _
  rw [h1, h2]

/-- On any successful run, `preprocess_image` returns
`preprocessImg` of the decoded input image. -/
theorem preprocess_image_ok (lib : ExternalLib) (input : ImageInput)
    (m : Nat) (img₀ img : Img) (h0 : inputImg input = some img₀)
    (h : preprocess_image lib input m = Except.ok img) :
    img = preprocessImg lib img₀ m := by
  cases input with
  | path pe i0 =>
      cases pe with
      | false => simp [preprocess_image] at h
      | true =>
          simp only [inputImg, Option.some.injEq] at h0
          simp only [preprocess_image, if_pos, Except.ok.injEq] at h
          rw [← h, ← h0]
  | inMemory i0 =>
      simp only [inputImg, Option.some.injEq] at h0
      simp only [preprocess_image, Except.ok.injEq] at h
      rw [← h, ← h0]
  | stream i0 =>
      simp only [inputImg, Option.some.injEq] at h0
      simp only [preprocess_image, Except.ok.injEq] at h
      rw [← h, ← h0]
  | unsupported => simp [inputImg] at h0

end PCB

namespace PCB

/-- C7 helper image: a solid 3000×2000 RGB test image. -/
def img3000x2000 : Img :=
  { width := 3000, height := 2000, mode := Mode.RGB,
    pixels := fun _ _ => ⟨0, 0, 0⟩ }

/-- **C7** — For a 3000×2000 input image and `max_size = 1920`,
`preprocess_image` produces an image of exactly 1920×1280 pixels
(scale factor 0.64 applied to each dimension, rounded down), for every
choice of the external resampling library. -/
theorem preprocess_3000x2000_gives_1920x1280 (lib : ExternalLib) :
    (preprocess_image lib (ImageInput.inMemory img3000x2000) 1920).map
      (fun i => (i.width, i.height)) = Except.ok (1920, 1280) := by
  simp [preprocess_image, preprocessImg, resizeIfBig, toRGB, img3000x2000,
    Except.map]

/-- **C2** — For every supported image input (file path, in-memory image,
or readable stream) on which `preprocess_image` succeeds, the result is
a 3-channel RGB image whose longer side is at most `max_size`, and each
output dimension is within ±1 pixel of the input dimension scaled by the
computed ratio (`max_size / max(input dims)` when the input exceeds the
bound, 1 otherwise). -/
theorem preprocess_rgb_bounded_aspect (lib : ExternalLib)
    (input : ImageInput) (m : Nat) (img₀ img : Img)
    (h0 : inputImg input = some img₀)
    (h : preprocess_image lib input m = Except.ok img) :
    img.mode = Mode.RGB
    ∧ max img.width img.height ≤ m
    ∧ (max img₀.width img₀.height ≤ m →
        img.width = img₀.width ∧ img.height = img₀.height)
    ∧ (m < max img₀.width img₀.height →
        img.width * max img₀.width img₀.height ≤ img₀.width * m
        ∧ img₀.width * m <
            img.width * max img₀.width img₀.height + max img₀.width img₀.height
        ∧ img.height * max img₀.width img₀.height ≤ img₀.height * m
        ∧ img₀.height * m <
            img.height * max img₀.width img₀.height + max img₀.width img₀.height) := by
  rw [preprocess_image_ok lib input m img₀ img h0 h]
  refine ⟨preprocessImg_mode lib img₀ m, preprocessImg_maxdim_le lib img₀ m, ?_, ?_⟩
  · intro hle
    have hle' : max (toRGB lib img₀).width (toRGB lib img₀).height ≤ m := by
      rw [toRGB_width, toRGB_height]; exact hle
    show (resizeIfBig lib (toRGB lib img₀) m).width = _
        ∧ (resizeIfBig lib (toRGB lib img₀) m).height = _
    rw [resizeIfBig_of_le lib _ m hle', toRGB_width, toRGB_height]
    exact ⟨rfl, rfl⟩
  · intro hgt
    have hgt' : m < max (toRGB lib img₀).width (toRGB lib img₀).height := by
      rw [toRGB_width, toRGB_height]; exact hgt
    have hd : 0 < max img₀.width img₀.height := by omega
    have hw : (preprocessImg lib img₀ m).width
        = img₀.width * m / max img₀.width img₀.height := by
      show (resizeIfBig lib (toRGB lib img₀) m).width = _
      rw [resizeIfBig_width_of_gt lib _ m hgt', toRGB_width, toRGB_height]
    have hh : (preprocessImg lib img₀ m).height
        = img₀.height * m / max img₀.width img₀.height := by
      show (resizeIfBig lib (toRGB lib img₀) m).height = _
      rw [resizeIfBig_height_of_gt lib _ m hgt', toRGB_width, toRGB_height]
    rw [hw, hh]
    refine ⟨Nat.div_mul_le_self _ _, ?_, Nat.div_mul_le_self _ _, ?_⟩
    · have := (Nat.div_lt_iff_lt_mul hd).mp
        (Nat.lt_succ_self (img₀.width * m / max img₀.width img₀.height))
      calc img₀.width * m
          < (img₀.width * m / max img₀.width img₀.height + 1)
              * max img₀.width img₀.height := this
        _ = img₀.width * m / max img₀.width img₀.height
              * max img₀.width img₀.height + max img₀.width img₀.height := by ring
    · have := (Nat.div_lt_iff_lt_mul hd).mp
        (Nat.lt_succ_self (img₀.height * m / max img₀.width img₀.height))
      calc img₀.height * m
          < (img₀.height * m / max img₀.width img₀.height + 1)
              * max img₀.width img₀.height := this
        _ = img₀.height * m / max img₀.width img₀.height
              * max img₀.width img₀.height + max img₀.width img₀.height := by ring

/-- A concrete instantiation of the external collaborators, used by
closed witness statements. -/
def libW : ExternalLib :=
  { convPix := fun _ p => p
    resample := fun i _ _ x y => i.pixels x y
    det := fun _ => []
    draw := fun _ i => i }

/-- Witness for C2 at a concrete stream input. -/
theorem preprocess_rgb_bounded_aspect_witness :
    inputImg (ImageInput.stream img3000x2000) = some img3000x2000
    ∧ preprocess_image libW (ImageInput.stream img3000x2000) 1920
        = Except.ok (preprocessImg libW img3000x2000 1920)
    ∧ ((preprocessImg libW img3000x2000 1920).mode = Mode.RGB
        ∧ max (preprocessImg libW img3000x2000 1920).width
            (preprocessImg libW img3000x2000 1920).height ≤ 1920
        ∧ (max img3000x2000.width img3000x2000.height ≤ 1920 →
            (preprocessImg libW img3000x2000 1920).width = img3000x2000.width
            ∧ (preprocessImg libW img3000x2000 1920).height = img3000x2000.height)
        ∧ (1920 < max img3000x2000.width img3000x2000.height →
            (preprocessImg libW img3000x2000 1920).width
                * max img3000x2000.width img3000x2000.height
              ≤ img3000x2000.width * 1920
            ∧ img3000x2000.width * 1920 <
                (preprocessImg libW img3000x2000 1920).width
                  * max img3000x2000.width img3000x2000.height
                + max img3000x2000.width img3000x2000.height
            ∧ (preprocessImg libW img3000x2000 1920).height
                * max img3000x2000.width img3000x2000.height
              ≤ img3000x2000.height * 1920
            ∧ img3000x2000.height * 1920 <
                (preprocessImg libW img3000x2000 1920).height
                  * max img3000x2000.width img3000x2000.height
                + max img3000x2000.width img3000x2000.height)) :=
  ⟨rfl, rfl,
    preprocess_rgb_bounded_aspect libW (ImageInput.stream img3000x2000) 1920
      img3000x2000 (preprocessImg libW img3000x2000 1920) rfl rfl⟩

/-- **C9** — An image whose longer side is at most `max_size` passes
through `preprocessImg` with its dimensions unchanged (the resize is
guarded by a strict `>` test, so a longer side exactly equal to
`max_size` is not resized), and applying `preprocessImg` twice with the
same `max_size` yields the same dimensions as applying it once. -/
theorem preprocess_dims_idempotent (lib : ExternalLib) (img : Img) (m : Nat) :
    (max img.width img.height ≤ m →
      (preprocessImg lib img m).width = img.width
      ∧ (preprocessImg lib img m).height = img.height)
    ∧ (preprocessImg lib (preprocessImg lib img m) m).width
        = (preprocessImg lib img m).width
    ∧ (preprocessImg lib (preprocessImg lib img m) m).height
        = (preprocessImg lib img m).height := by
  refine ⟨?_, by rw [preprocessImg_idem], by rw [preprocessImg_idem]⟩
  intro hle
  have hle' : max (toRGB lib img).width (toRGB lib img).height ≤ m := by
    rw [toRGB_width, toRGB_height]; exact hle
  show (resizeIfBig lib (toRGB lib img) m).width = _
      ∧ (resizeIfBig lib (toRGB lib img) m).height = _
  rw [resizeIfBig_of_le lib _ m hle', toRGB_width, toRGB_height]
  exact ⟨rfl, rfl⟩

/-- Helper image: a 1920×1080 image whose longer side equals the
default bound exactly. -/
def img1920x1080 : Img :=
  { width := 1920, height := 1080, mode := Mode.RGB,
    pixels := fun _ _ => ⟨7, 7, 7⟩ }

/-- Modelled from the spec: the out-of-scope detection library's
`Results.plot` "overlays detection boxes on the source image" — with no
boxes there is nothing to overlay and the source image comes back
unchanged; rendering one or more boxes is delegated to the external
renderer. -/
def plotModel (draw : List Box → Img → Img) (boxes : List Box)
    (img : Img) : Img :=
  match boxes with
  | [] => img
  | _ :: _ => draw boxes img

/-- The number of detections the detector reported, as `predict_image`
computes it (inference.py line 156: `len(result.boxes)` when boxes are
present, `0` when `result.boxes is None`), and `0` when the result list
itself is empty (the `else` branch at lines 159–162). -/
def reportedDetections (results : List YoloResult) : Nat :=
  match results with
  | [] => 0
  | r :: _ => (r.boxes.getD []).length

/-- `PCBInference.predict_image` (inference.py lines 89–187): preprocess,
run the detector, and either render the boxes over the image (the
library holds the image in BGR channel order; line 152 converts the
rendered array back with `cv2.COLOR_BGR2RGB`) or, when the result list
is empty, return the preprocessed image as-is.  The returned pair
carries the annotated image together with the detection count the call
reports (line 157 / line 162).  The `try/except` wrapper re-raises, so
failures surface as the `Except.error` of `preprocess_image`. -/
def predict_image (lib : ExternalLib) (input : ImageInput)
    (max_size : Nat) : Except PError (Img × Nat) :=
  match preprocess_image lib input max_size with
  | Except.error e => Except.error e
  | Except.ok image =>
    match lib.det image with
    | [] => Except.ok (image, 0)
    | result :: _ =>
        let boxes := result.boxes.getD []
        let annotated := plotModel lib.draw boxes (mapPixels swapChannels image)
        Except.ok (mapPixels swapChannels annotated, boxes.length)

theorem mapPixels_swap_swap (img : Img) :
    mapPixels swapChannels (mapPixels swapChannels img) = img := rfl

/-- **C1** — Whenever the detector reports zero detections on the
preprocessed image, `predict_image` returns that preprocessed image
unchanged together with an object count of 0. -/
theorem predict_image_zero_detections (lib : ExternalLib)
    (input : ImageInput) (m : Nat) (img : Img)
    (h : preprocess_image lib input m = Except.ok img)
    (hz : reportedDetections (lib.det img) = 0) :
    predict_image lib input m = Except.ok (img, 0) := by
  unfold predict_image
  rw [h]
  cases hdet : lib.det img with
  | nil => simp [hdet]
  | cons r rest =>
      have hb : r.boxes.getD [] = [] := by
        simpa [reportedDetections, hdet] using hz
      simp [hdet, hb, plotModel, mapPixels_swap_swap]

/-- Witness for C1: a concrete in-memory image with a detector that
returns one result record holding an empty box list. -/
def libZero : ExternalLib :=
  { convPix := fun _ p => p
    resample := fun i _ _ x y => i.pixels x y
    det := fun _ => [{ boxes := some [] }]
    draw := fun _ i => i }

theorem predict_image_zero_detections_witness :
    preprocess_image libZero (ImageInput.inMemory img1920x1080) 1920
        = Except.ok (preprocessImg libZero img1920x1080 1920)
    ∧ reportedDetections
        (libZero.det (preprocessImg libZero img1920x1080 1920)) = 0
    ∧ predict_image libZero (ImageInput.inMemory img1920x1080) 1920
        = Except.ok (preprocessImg libZero img1920x1080 1920, 0) :=
  ⟨rfl, rfl,
    predict_image_zero_detections libZero (ImageInput.inMemory img1920x1080)
      1920 (preprocessImg libZero img1920x1080 1920) rfl rfl⟩

/-! ## Orchestrator (`segtool.py`) -/

/-- Decimal digit character, `48 + d` as in Python's `str` of a digit. -/
def digitChar (d : Nat) : Char := Char.ofNat (48 + d)

/-- Python `str` of a non-negative `int`: decimal digits, most significant
first, no leading zeros (used by the f-string at segtool.py line 199). -/
def decRepr (n : Nat) : List Char :=
  if _h : n < 10 then [digitChar n]
  else decRepr (n / 10) ++ [digitChar (n % 10)]
decreasing_by exact Nat.div_lt_self (by omega) (by omega)

theorem decRepr_small {n : Nat} (h : n < 10) : decRepr n = [digitChar n] := by
  rw [decRepr]; exact dif_pos h

theorem decRepr_large {n : Nat} (h : 10 ≤ n) :
    decRepr n = decRepr (n / 10) ++ [digitChar (n % 10)] := by
  conv_lhs => rw [decRepr]
  rw [dif_neg (by omega)]

theorem decRepr_ne_nil (n : Nat) : decRepr n ≠ [] := by
  rcases Nat.lt_or_ge n 10 with h | h
  · rw [decRepr_small h]; simp
  · rw [decRepr_large h]; simp

theorem digitChar_ne_underscore : ∀ d, d < 10 → digitChar d ≠ '_' := by decide

theorem digitChar_inj :
    ∀ a, a < 10 → ∀ b, b < 10 → digitChar a = digitChar b → a = b := by decide

theorem underscore_not_mem_decRepr (n : Nat) : '_' ∉ decRepr n := by
  induction n using Nat.strong_induction_on with
  | _ n ih =>
    rcases Nat.lt_or_ge n 10 with h | h
    · rw [decRepr_small h]
      simp only [List.mem_singleton]
      exact fun he => digitChar_ne_underscore n h he.symm
    · rw [decRepr_large h]
      intro hmem
      rcases List.mem_append.mp hmem with h1 | h2
      · exact ih (n / 10) (Nat.div_lt_self (by omega) (by omega)) h1
      · exact digitChar_ne_underscore (n % 10) (Nat.mod_lt _ (by omega))
          (List.mem_singleton.mp h2).symm

theorem decRepr_inj (a : Nat) : ∀ b, decRepr a = decRepr b → a = b := by
  induction a using Nat.strong_induction_on with
  | _ a ih =>
    intro b h
    rcases Nat.lt_or_ge a 10 with ha | ha <;> rcases Nat.lt_or_ge b 10 with hb | hb
    · rw [decRepr_small ha, decRepr_small hb] at h
      exact digitChar_inj a ha b hb (List.singleton_inj.mp h)
    · exfalso
      rw [decRepr_small ha, decRepr_large hb] at h
      have hlen := congrArg List.length h
      simp only [List.length_singleton, List.length_append,
        List.length_cons, List.length_nil] at hlen
      exact decRepr_ne_nil (b / 10) (List.length_eq_zero.mp (by omega))
    · exfalso
      rw [decRepr_large ha, decRepr_small hb] at h
      have hlen := congrArg List.length h
      simp only [List.length_singleton, List.length_append,
        List.length_cons, List.length_nil] at hlen
      exact decRepr_ne_nil (a / 10) (List.length_eq_zero.mp (by omega))
    · rw [decRepr_large ha, decRepr_large hb] at h
      rcases List.append_inj' h rfl with ⟨h1, h2⟩
      have hm : a % 10 = b % 10 :=
        digitChar_inj _ (Nat.mod_lt _ (by omega)) _ (Nat.mod_lt _ (by omega))
          (List.singleton_inj.mp h2)
      have hd : a / 10 = b / 10 :=
        ih (a / 10) (Nat.div_lt_self (by omega) (by omega)) (b / 10) h1
      omega

/-- Splitting at a separator that occurs in neither tail is unambiguous. -/
theorem append_underscore_inj :
    ∀ (a b d1 d2 : List Char), '_' ∉ d1 → '_' ∉ d2 →
      a ++ '_' :: d1 = b ++ '_' :: d2 → a = b ∧ d1 = d2 := by
  intro a
  induction a with
  | nil =>
    intro b d1 d2 h1 h2 h
    cases b with
    | nil =>
      simp only [List.nil_append, List.cons.injEq] at h
      exact ⟨rfl, h.2⟩
    | cons y b' =>
      simp only [List.nil_append, List.cons_append, List.cons.injEq] at h
      exact absurd (h.2 ▸ List.mem_append_right b' (List.mem_cons_self _ _)) h1
  | cons x a' ih =>
    intro b d1 d2 h1 h2 h
    cases b with
    | nil =>
      simp only [List.nil_append, List.cons_append, List.cons.injEq] at h
      exact absurd (h.2 ▸ List.mem_append_right a' (List.mem_cons_self _ _)) h2
    | cons y b' =>
      simp only [List.cons_append, List.cons.injEq] at h
      rcases ih b' d1 d2 h1 h2 h.2 with ⟨he, hd⟩
      exact ⟨by rw [h.1, he], hd⟩

/-- The upload identity `f"{uploaded_file.name}_{uploaded_file.size}"`
(segtool.py line 199). -/
def fileId (name : List Char) (size : Nat) : List Char :=
  name ++ '_' :: decRepr size

/-- Two uploads get the same identity string exactly when they agree on
both name and byte size: the size suffix contains no underscore, so the
concatenation is unambiguous. -/
theorem fileId_inj (n1 n2 : List Char) (s1 s2 : Nat)
    (h : fileId n1 s1 = fileId n2 s2) : n1 = n2 ∧ s1 = s2 := by
  rcases append_underscore_inj n1 n2 (decRepr s1) (decRepr s2)
    (underscore_not_mem_decRepr s1) (underscore_not_mem_decRepr s2) h with ⟨h1, h2⟩
  exact ⟨h1, decRepr_inj s1 s2 h2⟩

/-- The nested `result.get("data", {}).get("outputs", {}).get("text", "")`
chain of `process_analysis` (segtool.py line 166). -/
structure WorkflowOutputs where
  text : Option String
deriving DecidableEq

structure WorkflowData where
  outputs : Option WorkflowOutputs
deriving DecidableEq

structure WorkflowResponse where
  data : Option WorkflowData
deriving DecidableEq

/-- `result.get("data", {}).get("outputs", {}).get("text", "")`: each
missing level falls back to its default, ending in the empty string. -/
def workflowText (r : WorkflowResponse) : String :=
  (((r.data.getD ⟨none⟩).outputs.getD ⟨none⟩).text).getD ""

/-- The dictionary `process_analysis` returns: `{"success": True,
"analysis_text": ..., "raw_response": ...}` or `{"success": False,
"error": ...}`. -/
inductive AnalysisResult where
  | ok (analysis_text : String) (raw : WorkflowResponse)
  | fail (error : String)
deriving DecidableEq

/-- `process_analysis` (segtool.py lines 121–174), from the point where
the two HTTP responses are in hand (the image re-encode and temp-file
I/O before the upload call are outside the decision being verified; the
HTTP responses themselves come from the out-of-scope Dify service and
enter as parameters).  Every `raise` inside the `try` lands in the
`except` clause, which returns the failure record with the exception
text. -/
def process_analysis (upload_status : Nat) (upload_body : String)
    (workflow_status : Nat) (wf : WorkflowResponse) : AnalysisResult :=
  if upload_status ≠ 201 then
    AnalysisResult.fail ("文件上传失败: " ++ upload_body)
  else if workflow_status = 200 then
    if workflowText wf ≠ "" then AnalysisResult.ok (workflowText wf) wf
    else AnalysisResult.fail "工作流执行成功，但没有返回分析文本"
  else
    AnalysisResult.fail ("工作流执行失败: HTTP " ++ toString workflow_status)

/-- The per-session mutable fields of `st.session_state` that the three
steps read and write (segtool.py lines 75–84 and 199–204). -/
structure SessionState where
  current_file_id : Option (List Char)
  detection_result : Option (List Nat)
  analysis_result : Option AnalysisResult
  detection_time : Option Nat
  processing : Bool
  analyzing : Bool
deriving DecidableEq

/-- The new-file check on upload (segtool.py lines 197–204): when
`current_file_id` is absent or differs from the identity of the file
just uploaded, record the new identity and clear the stored detection
result, analysis result and detection time; otherwise leave the state
alone. -/
def uploadStep (st : SessionState) (name : List Char) (size : Nat) :
    SessionState :=
  if st.current_file_id = some (fileId name size) then st
  else { st with
          current_file_id := some (fileId name size),
          detection_result := none,
          analysis_result := none,
          detection_time := none }

/-- The value `process_detection` (segtool.py lines 96–119) hands back to
the button handler: a success record with the annotated JPEG bytes and
the elapsed time, or — since the whole body is wrapped in
`try/except Exception` — a failure record carrying the exception text. -/
inductive DetectionResult where
  | ok (data : List Nat) (time : Nat)
  | fail (error : String)
deriving DecidableEq

/-- The status message the detection handler displays. -/
inductive DetectMsg where
  | done (time : Nat)
  | failed (error : String)
deriving DecidableEq

/-- The detection button handler (segtool.py lines 227–250): set
`processing`, run `process_detection`, then on success store the result
bytes and time and clear any prior analysis result; on failure only
display the error.  Either way `processing` ends `False`. -/
def detectionStep (st : SessionState) (r : DetectionResult) :
    SessionState × DetectMsg :=
  match r with
  | DetectionResult.ok data t =>
      ({ st with
          detection_result := some data,
          detection_time := some t,
          analysis_result := none,
          processing := false }, DetectMsg.done t)
  | DetectionResult.fail e =>
      ({ st with processing := false }, DetectMsg.failed e)

/-- Witness for C9 at a concrete image whose longer side equals
`max_size` exactly. -/
theorem preprocess_dims_idempotent_witness :
    max img1920x1080.width img1920x1080.height ≤ 1920
    ∧ ((preprocessImg libW img1920x1080 1920).width = img1920x1080.width
        ∧ (preprocessImg libW img1920x1080 1920).height = img1920x1080.height) :=
  ⟨by decide,
    (preprocess_dims_idempotent libW img1920x1080 1920).1 (by decide)⟩

/-- **C3** — With an upload of `(name, size)` previously recorded,
re-uploading a file with the same name and byte size leaves the session
state (and so the stored detection and analysis results) unchanged,
while uploading a file with a different name or different size sets the
stored detection result, analysis result and detection time to `none`. -/
theorem upload_same_keeps_new_clears (st : SessionState)
    (name name' : List Char) (size size' : Nat)
    (hprev : st.current_file_id = some (fileId name size)) :
    (name' = name ∧ size' = size → uploadStep st name' size' = st)
    ∧ (¬(name' = name ∧ size' = size) →
        (uploadStep st name' size').detection_result = none
        ∧ (uploadStep st name' size').analysis_result = none
        ∧ (uploadStep st name' size').detection_time = none) := by
  constructor
  · rintro ⟨rfl, rfl⟩
    unfold uploadStep
    rw [if_pos hprev]
  · intro hne
    have hid : fileId name size ≠ fileId name' size' := by
      intro he
      rcases fileId_inj name name' size size' he with ⟨h1, h2⟩
      exact hne ⟨h1.symm, h2.symm⟩
    unfold uploadStep
    rw [if_neg (by rw [hprev]; simpa using hid)]
    exact ⟨rfl, rfl, rfl⟩

/-- C3 witness state: an upload of name "a", size 5 recorded, with
detection and analysis results present. -/
def stPrev : SessionState :=
  { current_file_id := some (fileId ['a'] 5)
    detection_result := some [1, 2]
    analysis_result := some (AnalysisResult.fail "e")
    detection_time := some 2
    processing := false
    analyzing := false }

theorem upload_same_keeps_new_clears_witness :
    stPrev.current_file_id = some (fileId ['a'] 5)
    ∧ uploadStep stPrev ['a'] 5 = stPrev
    ∧ ((uploadStep stPrev ['b'] 5).detection_result = none
        ∧ (uploadStep stPrev ['b'] 5).analysis_result = none
        ∧ (uploadStep stPrev ['b'] 5).detection_time = none) :=
  ⟨rfl,
    (upload_same_keeps_new_clears stPrev ['a'] ['a'] 5 5 rfl).1 ⟨rfl, rfl⟩,
    (upload_same_keeps_new_clears stPrev ['a'] ['b'] 5 5 rfl).2 (by decide)⟩

/-- C4 counterexample state: a previous analysis result is on display. -/
def stWithAnalysis : SessionState :=
  { current_file_id := some (fileId ['a'] 5)
    detection_result := some [1, 2]
    analysis_result := some (AnalysisResult.ok "正常" ⟨none⟩)
    detection_time := some 2
    processing := false
    analyzing := false }

/-- **C4 counterexample** — The claim says running the detection step
always clears a previously held analysis result.  On a session state
holding an analysis result, a detection run that fails leaves the
analysis result in place, so the claim is false as stated. -/
theorem detection_rerun_clears_analysis_counterexample :
    stWithAnalysis.analysis_result
        = some (AnalysisResult.ok "正常" ⟨none⟩)
    ∧ (detectionStep stWithAnalysis (DetectionResult.fail "推理失败")).1.analysis_result
        = some (AnalysisResult.ok "正常" ⟨none⟩) :=
  ⟨rfl, rfl⟩

/-- **C4 (amended)** — A *successful* detection run always clears any
previously held analysis result; a failed run leaves prior state alone
(the failure branch of the handler writes none of the result fields). -/
theorem detection_success_clears_analysis (st : SessionState)
    (data : List Nat) (t : Nat) :
    (detectionStep st (DetectionResult.ok data t)).1.analysis_result = none :=
  rfl

/-- **C5** — When the detection step fails, the handler surfaces the
error message and leaves the stored detection result, detection time,
analysis result and upload identity exactly as they were; the failure is
an ordinary return value (`process_detection` catches every exception),
not a crash. -/
theorem detection_failure_preserves_state (st : SessionState) (e : String) :
    (detectionStep st (DetectionResult.fail e)).1.detection_result
        = st.detection_result
    ∧ (detectionStep st (DetectionResult.fail e)).1.detection_time
        = st.detection_time
    ∧ (detectionStep st (DetectionResult.fail e)).1.analysis_result
        = st.analysis_result
    ∧ (detectionStep st (DetectionResult.fail e)).1.current_file_id
        = st.current_file_id
    ∧ (detectionStep st (DetectionResult.fail e)).2 = DetectMsg.failed e :=
  ⟨rfl, rfl, rfl, rfl, rfl⟩

/-- **C10** — If the workflow call comes back HTTP 200 but the
`data.outputs.text` field is missing or empty, `process_analysis`
returns the failure record with an error message; it never returns a
success record whose analysis text is empty. -/
theorem analysis_empty_text_fails (us ws : Nat) (ub : String)
    (wf : WorkflowResponse) :
    (us = 201 → ws = 200 → workflowText wf = "" →
      process_analysis us ub ws wf
        = AnalysisResult.fail "工作流执行成功，但没有返回分析文本")
    ∧ (∀ t raw, process_analysis us ub ws wf = AnalysisResult.ok t raw →
        t ≠ "") := by
  constructor
  · intro h201 h200 htext
    unfold process_analysis
    rw [if_neg (by omega), if_pos h200]
    simp [htext]
  · intro t raw h
    unfold process_analysis at h
    split at h
    · simp at h
    · split at h
      · split at h
        · next hne =>
            simp only [AnalysisResult.ok.injEq] at h
            rw [← h.1]
            simpa using hne
        · simp at h
      · simp at h

/-- Witness for C10: HTTP 201 upload, HTTP 200 workflow, response with
the `text` field absent. -/
theorem analysis_empty_text_fails_witness :
    process_analysis 201 "body" 200 ⟨some ⟨some ⟨none⟩⟩⟩
        = AnalysisResult.fail "工作流执行成功，但没有返回分析文本" :=
  (analysis_empty_text_fails 201 200 "body" ⟨some ⟨some ⟨none⟩⟩⟩).1 rfl rfl rfl

/-! ## Batch inference (`predict_batch`) -/

/-- The closure `process_single_image` inside `predict_batch`
(inference.py lines 200–219): run `predict_image` on the entry; any
exception is caught and recorded as `None` for that entry (the save path
and index only affect logging and the output filename). -/
def processSingleImage (lib : ExternalLib) (input : ImageInput) :
    Option Img :=
  match predict_image lib input 1920 with
  | Except.ok (img, _) => some img
  | Except.error _ => none

/-- `PCBInference.predict_batch` (inference.py lines 189–229): one
result slot per submitted image.  `as_completed` collects the futures in
an unspecified completion order — a permutation of submission order —
so the embedding uses submission order; the properties proved below are
counts, which any permutation preserves. -/
def predict_batch (lib : ExternalLib) (image_list : List ImageInput) :
    List (Option Img) :=
  image_list.map (processSingleImage lib)

/-- The thread-pool size at inference.py line 222:
`ThreadPoolExecutor(max_workers=min(max_workers, 2))`. -/
def batchWorkers (max_workers : Nat) : Nat := min max_workers 2

/-- Whether a batch entry is a file-path input. -/
def isPathInput : ImageInput → Bool
  | ImageInput.path _ _ => true
  | _ => false

/-- Whether a batch entry is a path whose file does not exist — the
invalid-path case, on which `predict_image` raises `FileNotFoundError`. -/
def isMissingPath : ImageInput → Bool
  | ImageInput.path pathExists _ => !pathExists
  | _ => false

/-- On a path input, the batch slot is `none` exactly when the path is
invalid: a valid path flows through `predict_image` to a result image
whatever the detector returns. -/
theorem processSingleImage_isNone (lib : ExternalLib) (i : ImageInput)
    (hp : isPathInput i = true) :
    (processSingleImage lib i).isNone = isMissingPath i := by
  cases i with
  | path pe img =>
      cases pe with
      | false => rfl
      | true =>
          show (processSingleImage lib (ImageInput.path true img)).isNone
              = false
          unfold processSingleImage predict_image
          simp only [preprocess_image, if_pos]
          cases lib.det (preprocessImg lib img 1920) <;> simp
  | inMemory img => simp [isPathInput] at hp
  | stream img => simp [isPathInput] at hp
  | unsupported => simp [isPathInput] at hp

/-- **C6** — Over a list of path inputs of which exactly one is invalid,
`predict_batch` returns exactly one slot per input, with exactly one
`none` entry and N−1 valid entries: the failure on the invalid path does
not abort the rest of the batch. -/
theorem batch_partial_failure (lib : ExternalLib) (l : List ImageInput)
    (hpaths : ∀ i ∈ l, isPathInput i = true)
    (hone : l.countP isMissingPath = 1) :
    (predict_batch lib l).length = l.length
    ∧ (predict_batch lib l).countP (fun o => o.isNone) = 1
    ∧ (predict_batch lib l).countP (fun o => o.isSome) = l.length - 1 := by
  have hlen : (predict_batch lib l).length = l.length := by
    simp [predict_batch]
  have hnone : (predict_batch lib l).countP (fun o => o.isNone) = 1 := by
    unfold predict_batch
    rw [List.countP_map]
    rw [List.countP_congr (fun i hi => ?_)]
    · exact hone
    · rw [Function.comp_apply, processSingleImage_isNone lib i (hpaths i hi)]
  have htotal := List.length_eq_countP_add_countP
    (fun o : Option Img => o.isNone) (predict_batch lib l)
  have hcongr : (predict_batch lib l).countP (fun o => o.isSome)
      = (predict_batch lib l).countP (fun o => decide ¬o.isNone = true) :=
    List.countP_congr (fun o _ => by cases o <;> simp)
  refine ⟨hlen, hnone, ?_⟩
  rw [hcongr]
  omega

/-- C6 witness batch: three path inputs, the middle one invalid. -/
def batchL : List ImageInput :=
  [ImageInput.path true img1920x1080,
   ImageInput.path false img1920x1080,
   ImageInput.path true img1920x1080]

theorem batch_partial_failure_witness :
    (∀ i ∈ batchL, isPathInput i = true)
    ∧ batchL.countP isMissingPath = 1
    ∧ (predict_batch libW batchL).length = batchL.length
    ∧ (predict_batch libW batchL).countP (fun o => o.isNone) = 1
    ∧ (predict_batch libW batchL).countP (fun o => o.isSome)
        = batchL.length - 1 :=
  ⟨by decide, by decide,
    (batch_partial_failure libW batchL (by decide) (by decide)).1,
    (batch_partial_failure libW batchL (by decide) (by decide)).2.1,
    (batch_partial_failure libW batchL (by decide) (by decide)).2.2⟩

/-- **C8** — For every requested worker count, the thread pool of
`predict_batch` runs with `min(requested, 2)` workers: the effective
concurrency never exceeds 2, never exceeds the request, equals 2 for any
request of at least 2, and equals the request below that. -/
theorem batch_workers_capped (r : Nat) :
    batchWorkers r ≤ 2 ∧ batchWorkers r ≤ r
    ∧ (2 ≤ r → batchWorkers r = 2) ∧ (r ≤ 2 → batchWorkers r = r) := by
  unfold batchWorkers
  omega

/-- Witness for C8 at the source default `max_workers=4` and at a small
request. -/
theorem batch_workers_capped_witness :
    batchWorkers 4 = 2 ∧ batchWorkers 1 = 1 :=
  ⟨(batch_workers_capped 4).2.2.1 (by decide),
   (batch_workers_capped 1).2.2.2 (by decide)⟩

end PCB
